import Mathlib

attribute [local semireducible] Rat.add Rat.mul Rat.inv Rat.sub Rat.ofScientific

/-!
# Verification of the CAENels FAST-PS UDP/OPC-UA gateway

Shallow embedding of the two C sources of the repository
(`src/UdpServer.c` and `src/OpcUaServer.c`) and proofs about the
claims of the specification.  The target machine is the little-endian
32-bit ARM CPU of the power supplies, so all multi-byte in-memory
fields are modelled as little-endian byte lists; machine integers are
modelled as `Nat`/`Int` with explicit reductions modulo powers of two.
Bytes are `Nat` values below 256; every byte produced by the
definitions below is reduced modulo 256 at the point of construction.
Numeric values carried by C `double` variables are modelled as
rationals; every concrete value appearing in a theorem below is
exactly representable, so no floating-point rounding is involved.
-/

namespace FastPS

/-! ## The ones complement checksum, `csum` in `UdpServer.c`

```c
unsigned short csum(unsigned short *ptr, int nbytes)
```
reads the buffer as little-endian 16-bit words (a trailing odd byte is
padded with a zero high byte), adds them in a `long`, folds the carries
twice and returns the complement of the low 16 bits. -/

/-- Sum of the little-endian 16-bit words of a byte list, odd trailing
byte taken as a word with zero high byte (the `oddbyte` branch). -/
def wordSum : List Nat → Nat
  | [] => 0
  | [b] => b % 256
  | lo :: hi :: t => (lo % 256 + 256 * (hi % 256)) + wordSum t

/-- The carry folding and final complement of `csum`:
`sum = (sum>>16)+(sum & 0xffff); sum = sum + (sum>>16);` then the
complement of the low 16 bits of the result. -/
def csumFold (s : Nat) : Nat :=
  let s1 := s / 65536 + s % 65536
  let s2 := s1 + s1 / 65536
  65535 - s2 % 65536

/-- `csum` applied to a byte buffer (`nbytes` = length of the list). -/
def csumBytes (bytes : List Nat) : Nat :=
  csumFold (wordSum bytes)

/-! ## Little-endian encodings of the packed wire structs -/

/-- Little-endian bytes of a 16-bit field (value taken mod 2^16). -/
def le16 (x : Nat) : List Nat :=
  [x % 256, x / 256 % 256]

/-- Little-endian bytes of a 32-bit field (value taken mod 2^32). -/
def le32 (x : Nat) : List Nat :=
  [x % 256, x / 256 % 256, x / 2 ^ 16 % 256, x / 2 ^ 24 % 256]

/-- Little-endian bytes of a 64-bit unsigned field. -/
def le64 (x : Nat) : List Nat :=
  le32 (x % 2 ^ 32) ++ le32 (x / 2 ^ 32 % 2 ^ 32)

/-- Little-endian bytes of an `int64_t` field (two's complement). -/
def le64i (x : Int) : List Nat :=
  le64 ((x.emod (2 ^ 64)).toNat)

/-- Read `len` little-endian bytes at offset `off` of a buffer as an
unsigned number (missing bytes read as 0). -/
def leNat (bytes : List Nat) (off len : Nat) : Nat :=
  ((bytes.drop off).take len).foldr (fun b acc => b % 256 + 256 * acc) 0

/-- Read an `int64_t` at offset `off` (little-endian, two's complement),
as done by accessing the packed `control_data` struct fields. -/
def leI64 (bytes : List Nat) (off : Nat) : Int :=
  let u := leNat bytes off 8
  if u < 2 ^ 63 then (u : Int) else (u : Int) - 2 ^ 64

/-- The C narrowing conversion to a 32-bit `int`, modelled as
two's-complement wraparound.  (For an out-of-range `double` source the
conversion is undefined behaviour in C; every implementation still
yields some value representable in 32 bits, which is all that the
theorems about claim C4 rely on.) -/
def toInt32 (x : Int) : Int :=
  (x + 2 ^ 31).emod (2 ^ 32) - 2 ^ 31

/-- C `round()`: round half away from zero, as applied to the exact
rational value of the scanned reply. -/
def roundHalfAway (q : ℚ) : Int :=
  if 0 ≤ q then (q + mkRat 1 2).floor else (q - mkRat 1 2).ceil

/-! ## `sscanf` conversions used by the sources

The device replies are ASCII; the sources scan them with
`sscanf(response+k, "%x", ...)` and `sscanf(response+k, "%lf", ...)`.
Reply strings are modelled as `List Char`. -/

/-- `isspace` for the characters relevant to `sscanf` skipping. -/
def isWs (c : Char) : Bool :=
  c = ' ' || c = '\t' || c = '\n' || c = '\r' || c = '\x0b' || c = '\x0c'

/-- ASCII decimal digit test. -/
def isDigitC (c : Char) : Bool :=
  '0' ≤ c && c ≤ '9'

/-- ASCII hexadecimal digit test. -/
def isHexC (c : Char) : Bool :=
  isDigitC c || ('a' ≤ c && c ≤ 'f') || ('A' ≤ c && c ≤ 'F')

/-- Value of a hexadecimal digit character. -/
def hexVal (c : Char) : Nat :=
  if isDigitC c then c.toNat - 48
  else if 'a' ≤ c && c ≤ 'f' then c.toNat - 87
  else c.toNat - 55

/-- Value of the decimal digit list (most significant first). -/
def natOfDigits (ds : List Char) : Nat :=
  ds.foldl (fun a c => 10 * a + (c.toNat - 48)) 0

/-- Value of the hexadecimal digit list (most significant first). -/
def natOfHexDigits (ds : List Char) : Nat :=
  ds.foldl (fun a c => 16 * a + hexVal c) 0

/-- `sscanf("%x")` into an `unsigned int`: skip whitespace, accept an
optional `0x`/`0X` marker, read hexadecimal digits, reduce mod 2^32.
`none` when no digit can be read (the conversion fails and the C
target variable is left unchanged). -/
def parseHexU32 (l0 : List Char) : Option Nat :=
  let l1 := l0.dropWhile isWs
  let l2 :=
    match l1 with
    | '0' :: c :: t =>
      if (c = 'x' || c = 'X') && !(t.takeWhile isHexC).isEmpty then t else l1
    | _ => l1
  let ds := l2.takeWhile isHexC
  if ds.isEmpty then none else some (natOfHexDigits ds % 2 ^ 32)

/-- `sscanf("%lf")`: skip whitespace, optional sign, integer digits,
optional fractional part, optional decimal exponent; the scanned text
denotes an exact rational.  `none` when no digit can be read.  (The C
conversion additionally accepts `inf`/`nan` and hexadecimal floats,
which the device never sends and which are not modelled.) -/
def parseLf (l0 : List Char) : Option ℚ :=
  let l1 := l0.dropWhile isWs
  let sgn : ℚ × List Char :=
    match l1 with
    | '-' :: t => (-1, t)
    | '+' :: t => (1, t)
    | t => (1, t)
  let l2 := sgn.2
  let ip := l2.takeWhile isDigitC
  let l3 := l2.dropWhile isDigitC
  let fp : List Char × List Char :=
    match l3 with
    | '.' :: t => (t.takeWhile isDigitC, t.dropWhile isDigitC)
    | t => ([], t)
  if ip.isEmpty && fp.1.isEmpty then none
  else
    let mant : ℚ := (natOfDigits ip : ℚ) + (natOfDigits fp.1 : ℚ) / (10 ^ fp.1.length : ℚ)
    let ex : Int :=
      match fp.2 with
      | 'e' :: t | 'E' :: t =>
        let es : Int × List Char :=
          match t with
          | '-' :: u => (-1, u)
          | '+' :: u => (1, u)
          | u => (1, u)
        let ed := es.2.takeWhile isDigitC
        if ed.isEmpty then 0 else es.1 * natOfDigits ed
      | _ => 0
    some (sgn.1 * mant * (10 : ℚ) ^ ex)

/-- `strncmp(s, marker, marker.length) == 0`: `marker` begins the
string `s`. -/
def leadsWith : List Char → List Char → Bool
  | [], _ => true
  | _ :: _, [] => false
  | a :: as, b :: bs => a = b && leadsWith as bs

/-- The acknowledgement marker `"#AK"` checked with `strncmp(.,.,3)`. -/
def ackMarker : List Char := ['#', 'A', 'K']

/-- The `"#MRG:"` marker checked by `readRegister`. -/
def mrgMarker : List Char := ['#', 'M', 'R', 'G', ':']

/-- Log text of the `recv_len != CONTROLSIZE` branch. -/
def logUnknownPkt : List Char := "Received unknown packet".toList

/-- Log text of the wrong-magic branch. -/
def logWrongMagic : List Char := "Received wrong magic".toList

/-- Log text of a rejected voltage setpoint. -/
def logVoltErr : List Char := "error setting the voltage".toList

/-- Log text of a rejected current setpoint. -/
def logCurrErr : List Char := "error setting the current".toList

/-! ## The UDP responder (`main` of `UdpServer.c`)

One loop iteration that has actually received a datagram is modelled
as a function from the received bytes, the device replies and the
ambient state (packet counter, client address) to the list of
observable events: log lines, device command exchanges and the packet
handed to `sendto`.  The device is the environment: `DevReplies` holds
the reply string the TCP server returns to each of the at most seven
commands an iteration can issue. -/

/-- Constants of `UdpServer.c`. -/
def CONTROLSIZE : Nat := 24

/-- The expected `magic` signature word. -/
def CONTROLMAGIC : Nat := 0x4C556543

/-- Size of the `response_data` payload struct. -/
def RESPONSESIZE : Nat := 36

/-- `sizeof(struct iphdr) + sizeof(struct udphdr) + RESPONSESIZE`. -/
def TOTLEN : Nat := 64

/-- The commands a responder iteration can issue.  `MWV`/`MWI` carry
the raw micro-unit setpoint `x` from the control datagram; the C code
sends the text `MWV:` followed by `sprintf` formatting of
`1.0e-6 * x` with six decimals (`"%9.6f"`), then CRLF.  The five
readback commands carry no argument. -/
inductive DevCmd
  | MWV (uV : Int)
  | MWI (uA : Int)
  | MST
  | MWIq
  | MWVq
  | MRI
  | MRV
  deriving DecidableEq, Repr

/-- The reply string the internal TCP server returns for each command
of one loop iteration. -/
structure DevReplies where
  mwv : List Char
  mwi : List Char
  mst : List Char
  mwiq : List Char
  mwvq : List Char
  mri : List Char
  mrv : List Char

/-- Observable events of one loop iteration. -/
inductive Event
  | log (msg : List Char)
  | cmd (c : DevCmd) (reply : List Char)
  | send (pkt : List Nat)
  deriving DecidableEq, Repr

/-- The device commands of an event trace, in order. -/
def cmdsOf (tr : List Event) : List DevCmd :=
  tr.filterMap fun e =>
    match e with
    | Event.cmd c _ => some c
    | _ => none

/-- The packets handed to `sendto` in an event trace, in order. -/
def sendsOf (tr : List Event) : List (List Nat) :=
  tr.filterMap fun e =>
    match e with
    | Event.send p => some p
    | _ => none

/-- `sscanf(response+5, "%x", &(databuffer->status))`: the status
field; on a failed conversion the field keeps the value 0 written into
`send_buffer` by `memset`. -/
def statusOf (reply : List Char) : Nat :=
  (parseHexU32 (reply.drop 5)).getD 0

/-- `(int)round(1e6 * v)` where `v` was scanned by
`sscanf(response+5, "%lf", &v)`: the micro-unit value stored into an
`int64_t` payload field after the narrowing cast to `int`.  (When the
conversion fails the C variable is uninitialised; the model reads 0,
and no theorem below evaluates this case.) -/
def microOf (reply : List Char) : Int :=
  toInt32 (roundHalfAway (1000000 * (parseLf (reply.drop 5)).getD 0))

/-- The 36 payload bytes of the packed `response_data` struct:
`status`, `current_setpoint`, `voltage_setpoint`, `current_value`,
`voltage_value`, filled from the replies to `MST`, `MWI:?`, `MWV:?`,
`MRI`, `MRV`. -/
def payloadBytes (dev : DevReplies) : List Nat :=
  le32 (statusOf dev.mst) ++ le64i (microOf dev.mwiq) ++ le64i (microOf dev.mwvq)
    ++ le64i (microOf dev.mri) ++ le64i (microOf dev.mrv)

/-- The 20 bytes of `struct iphdr` as filled by the loop:
`ihl=5, version=4` (one byte, low nibble first on this target),
`tos=0`, `tot_len=64` stored in host byte order (no `htons`),
`id = udp_counter` truncated to 16 bits, `frag_off=0`, `ttl=255`,
`protocol=17`, the checksum field, `saddr = INADDR_ANY = 0`, and the
4 destination-address bytes taken from the client as received. -/
def ipHdrBytes (counter : Nat) (daddr : List Nat) (chk : Nat) : List Nat :=
  [0x45, 0, 64, 0] ++ le16 counter ++ [0, 0, 255, 17] ++ le16 chk
    ++ [0, 0, 0, 0] ++ daddr

/-- The contents of `send_buffer` at the moment
`csum((unsigned short *) send_buffer, iph->tot_len)` runs: the IP
header with a zeroed checksum field, the 8 UDP header bytes still zero
from `memset`, and the already-written 36 payload bytes. -/
def bufAtIpCsum (counter : Nat) (daddr : List Nat) (dev : DevReplies) : List Nat :=
  ipHdrBytes counter daddr 0 ++ List.replicate 8 0 ++ payloadBytes dev

/-- The value stored into `iph->check`. -/
def ipChecksum (counter : Nat) (daddr : List Nat) (dev : DevReplies) : Nat :=
  csumBytes (bufAtIpCsum counter daddr dev)

/-- The 8 bytes of `struct udphdr`: source port `htons(16665)`
(network order in memory), the 2 destination-port bytes taken from the
client as received, `len = htons(8 + RESPONSESIZE)`, checksum. -/
def udpHdrBytes (dport : List Nat) (chk : Nat) : List Nat :=
  [0x41, 0x19] ++ dport ++ [0, 44] ++ le16 chk

/-- The pseudo header used for the UDP checksum: source address,
destination address, zero byte, protocol 17, UDP length. -/
def pseudoHdr (daddr : List Nat) : List Nat :=
  [0, 0, 0, 0] ++ daddr ++ [0, 17] ++ [0, 44]

/-- The value stored into `udph->check`: `csum` over the pseudo header
concatenated with the UDP header (checksum still zero) and payload. -/
def udpChecksum (dport daddr : List Nat) (dev : DevReplies) : Nat :=
  csumBytes (pseudoHdr daddr ++ udpHdrBytes dport 0 ++ payloadBytes dev)

/-- The `iph->tot_len` = 64 bytes handed to `sendto`. -/
def sentPacket (counter : Nat) (daddr dport : List Nat) (dev : DevReplies) : List Nat :=
  ipHdrBytes counter daddr (ipChecksum counter daddr dev)
    ++ udpHdrBytes dport (udpChecksum dport daddr dev)
    ++ payloadBytes dev

/-- The `in_data->set != 0` branch: send `MWV` with the voltage
setpoint, log unless the reply begins with `#AK`, then likewise `MWI`
with the current setpoint. -/
def setpointEvents (csp vsp : Int) (dev : DevReplies) : List Event :=
  [Event.cmd (DevCmd.MWV vsp) dev.mwv]
    ++ (if leadsWith ackMarker dev.mwv then [] else [Event.log logVoltErr])
    ++ [Event.cmd (DevCmd.MWI csp) dev.mwi]
    ++ (if leadsWith ackMarker dev.mwi then [] else [Event.log logCurrErr])

/-- The readback phase: `MST`, `MWI:?`, `MWV:?`, `MRI`, `MRV`, in the
order of the source. -/
def readbackEvents (dev : DevReplies) : List Event :=
  [Event.cmd DevCmd.MST dev.mst, Event.cmd DevCmd.MWIq dev.mwiq,
   Event.cmd DevCmd.MWVq dev.mwvq, Event.cmd DevCmd.MRI dev.mri,
   Event.cmd DevCmd.MRV dev.mrv]

/-- One loop iteration of `main` in `UdpServer.c` that has received
the bytes `buf`; `counter` is the value of `udp_counter` after the
increment, `daddr`/`dport` the address and port bytes of the client as
stored by `recvfrom` (network order).  Mirrors the source: length
check, magic check, optional setpoint phase, readback phase, packet
construction, `sendto`. -/
def udpIteration (counter : Nat) (daddr dport : List Nat) (buf : List Nat)
    (dev : DevReplies) : List Event :=
  if buf.length ≠ CONTROLSIZE then
    [Event.log logUnknownPkt]
  else if leNat buf 0 4 ≠ CONTROLMAGIC then
    [Event.log logWrongMagic]
  else
    (if leNat buf 4 4 ≠ 0 then setpointEvents (leI64 buf 8) (leI64 buf 16) dev else [])
      ++ readbackEvents dev
      ++ [Event.send (sentPacket counter daddr dport dev)]

/-! ## `TcpSendReceive` (both sources)

```c
unsigned int TcpSendReceive()            // UdpServer.c
static int TcpSendReceive()              // OpcUaServer.c
```
Both send `strlen(command)` bytes in one `send` call and die on a
mismatched count, then perform exactly one `recv` into the 80-byte
`response` buffer (at most `BUFSIZE-1` bytes).  They differ in the
receive path: `UdpServer.c` holds the `recv` result in an
`unsigned int reclen` and writes `response[reclen] = '\0'`
unconditionally; `OpcUaServer.c` holds it in an `int` and writes the
terminator only when `reclen > 0`. -/

/-- `BUFSIZE` of both sources. -/
def BUFSIZE : Nat := 80

/-- Conversion of a C signed value to `unsigned int` (mod 2^32), as in
`unsigned int reclen = recv(...)`. -/
def toUInt32 (x : Int) : Nat :=
  (x.emod (2 ^ 32)).toNat

/-- Index at which `UdpServer.c`s `TcpSendReceive` writes the NUL
terminator, given the `recv` return value. -/
def udpNulIndex (recvResult : Int) : Nat :=
  toUInt32 recvResult

/-- Index at which `OpcUaServer.c`s `TcpSendReceive` writes the NUL
terminator: only when `reclen > 0`. -/
def opcNulIndex (recvResult : Int) : Option Nat :=
  if 0 < recvResult then some recvResult.toNat else none

/-- Outcome of the send phase of `TcpSendReceive`. -/
inductive SendOutcome
  | fatal
  | proceed
  deriving DecidableEq, Repr

/-- The send phase: `if (send(sock, command, buflen, 0) != buflen)
Die(...)`.  `cmd` is the full command string in the buffer (CRLF
included), `accepted` the `send` return value; the comparison converts
the signed result to `unsigned int` against `buflen = strlen(command)`
(32-bit target). -/
def tcpSendPhase (cmd : List Char) (accepted : Int) : SendOutcome :=
  if toUInt32 accepted ≠ cmd.length % 2 ^ 32 then SendOutcome.fatal
  else SendOutcome.proceed

/-! ## `readRegister` (`OpcUaServer.c`)

Sends `MRG:<n>`, checks the `#MRG:` marker with `strncmp`, then scans
`sscanf(response+8, "%lf", &val)` — a fixed offset of 8 characters. -/

/-- The command text built by `snprintf(command, BUFSIZE,
"MRG:%d\r\n", index)`. -/
def regReadCommand (n : Nat) : List Char :=
  "MRG:".toList ++ (Nat.repr n).toList ++ ['\r', '\n']

/-- The register read callback given the device reply: validates the
`#MRG:` marker, then parses the reply at the fixed offset 8 (on a
failed conversion the C `val` is uninitialised, modelled as 0; the
`sscanf` result is not checked by the code). -/
def readRegister (resp : List Char) : Option ℚ :=
  if leadsWith mrgMarker resp then some ((parseLf (resp.drop 8)).getD 0)
  else none

/-- Modelled from the spec: the claimed parse position for a register
reply — the decimal value immediately following the colon-delimited
echo of the register number `n`, i.e. offset
`length "#MRG:" + digits(n) + 1`, whatever the digit count of `n`. -/
def readRegisterClaimed (n : Nat) (resp : List Char) : Option ℚ :=
  if leadsWith mrgMarker resp then
    some ((parseLf (resp.drop (5 + (Nat.repr n).length + 1))).getD 0)
  else none

/-! ## Register table construction (`main` of `OpcUaServer.c`)

The `<register>` loop stores each entry at `RegNr[loopindex]`,
increments `loopindex` and dies (`"too many registers"`) as soon as
`loopindex >= maxreg`.  No uniqueness check of register numbers is
performed anywhere. -/

/-- `maxreg` — size of the `RegNr` array. -/
def maxreg : Nat := 40

/-- A configured register: number, node name, description. -/
structure RegisterEntry where
  number : Nat
  name : List Char
  descr : List Char
  deriving DecidableEq, Repr

/-- The registration loop over the configured entries, carrying
`loopindex`; returns the final count, or `none` when the capacity
check `loopindex >= maxreg` fires (`Die("too many registers")`,
after the entry was added). -/
def loadRegisters : List RegisterEntry → Nat → Option Nat
  | [], i => some i
  | _ :: t, i =>
    if i + 1 ≥ maxreg then none else loadRegisters t (i + 1)

/-- The top-level phases of `main` in `OpcUaServer.c`, in source
order: XML configuration parsing, TCP connection to the device,
OPC-UA server configuration, register registration loop, server run. -/
inductive Phase
  | parseConfig
  | connectTcp
  | configureServer
  | loadRegs
  | runServer
  deriving DecidableEq, Repr

/-- The order in which `main` executes its phases. -/
def opcUaMainPhases : List Phase :=
  [Phase.parseConfig, Phase.connectTcp, Phase.configureServer,
   Phase.loadRegs, Phase.runServer]

/-! ## Variable write callbacks (`OpcUaServer.c`)

Each callback validates the input variant (`hasValue`, scalar, matching
type, non-null data) — modelled as an `Option` argument — issues one
device command and returns a status code.  The reply returned by
`TcpSendReceive` is passed in to show which results depend on it. -/

/-- The OPC-UA status codes returned by the callbacks. -/
inductive UAStatus
  | good
  | uncertainNoComm
  | badComm
  deriving DecidableEq, Repr

/-- `writeDeviceOutputOn`: a valid boolean issues `MON` or `MOFF` and
returns `UA_STATUSCODE_GOOD` irrespective of the reply; invalid input
returns the uncertain status without any command. -/
def writeDeviceOutputOn (input : Option Bool) (_reply : List Char) :
    UAStatus × List (List Char) :=
  match input with
  | some v =>
    (UAStatus.good, [if v then "MON\r\n".toList else "MOFF\r\n".toList])
  | none => (UAStatus.uncertainNoComm, [])

/-- A setpoint command issued by the OPC-UA write callbacks; the
constructor argument is the value handed to
`snprintf(command, BUFSIZE, "MWI:%9.6f\r\n", val)` (resp. `MWV`). -/
inductive SetpointCmd
  | mwi (val : ℚ)
  | mwv (val : ℚ)
  deriving DecidableEq, Repr

/-- `writeCurrentSetpoint`: a valid double issues `MWI:<value>`
(six-decimal format) and returns `UA_STATUSCODE_GOOD` irrespective of
the reply. -/
def writeCurrentSetpoint (input : Option ℚ) (_reply : List Char) :
    UAStatus × List SetpointCmd :=
  match input with
  | some v => (UAStatus.good, [SetpointCmd.mwi v])
  | none => (UAStatus.uncertainNoComm, [])

/-- `writeVoltageSetpoint`: a valid double issues `MWV:<value>` and
returns `UA_STATUSCODE_GOOD` irrespective of the reply. -/
def writeVoltageSetpoint (input : Option ℚ) (_reply : List Char) :
    UAStatus × List SetpointCmd :=
  match input with
  | some v => (UAStatus.good, [SetpointCmd.mwv v])
  | none => (UAStatus.uncertainNoComm, [])

/-! ## Concrete sample inputs used by witnesses and counterexamples -/

/-- A set of well-formed device replies (hexadecimal status word, six
decimal digits for the analog values, as the FAST-PS sends them). -/
def sampleReplies : DevReplies :=
  { mwv := "#AK".toList
    mwi := "#AK".toList
    mst := "#MST:80028000".toList
    mwiq := "#MWI:1.500000".toList
    mwvq := "#MWV:2.500000".toList
    mri := "#MRI:1.499900".toList
    mrv := "#MRV:2.499900".toList }

/-- A well-formed control datagram with `set = 0` and zero setpoints:
the magic word `0x4C556543` in little-endian byte order followed by
zeros. -/
def bufNoSet : List Nat :=
  [0x43, 0x65, 0x55, 0x4C] ++ List.replicate 20 0

/-- A well-formed control datagram with `set = 1`,
`current_setpoint = 2000000` and `voltage_setpoint = 5000000`. -/
def bufSet : List Nat :=
  [0x43, 0x65, 0x55, 0x4C] ++ [1, 0, 0, 0] ++ le64i 2000000 ++ le64i 5000000

/-- Forty register entries with pairwise distinct register numbers:
exactly the fixed capacity `maxreg`. -/
def regsFull : List RegisterEntry :=
  (List.range maxreg).map (fun k => { number := k, name := [], descr := [] })

/-! ## Helper lemmas -/

/-- `wordSum` distributes over an append at an even boundary. -/
theorem wordSum_append : ∀ (a b : List Nat), a.length % 2 = 0 →
    wordSum (a ++ b) = wordSum a + wordSum b
  | [], _, _ => by simp [wordSum]
  | [_], _, h => by simp at h
  | x :: y :: t, b, h => by
    have ht : t.length % 2 = 0 := by
      simp only [List.length_cons] at h
      omega
    have hrec := wordSum_append t b ht
    simp only [List.cons_append, wordSum, List.append_eq] at hrec ⊢
    omega

theorem le16_length (x : Nat) : (le16 x).length = 2 := rfl

theorem le32_length (x : Nat) : (le32 x).length = 4 := rfl

theorem le64i_length (x : Int) : (le64i x).length = 8 := by
  simp [le64i, le64, le32]

theorem payloadBytes_length (dev : DevReplies) : (payloadBytes dev).length = 36 := by
  simp [payloadBytes, le32, le64i, le64]

theorem ipHdrBytes_length (c : Nat) (d : List Nat) (k : Nat) :
    (ipHdrBytes c d k).length = 16 + d.length := by
  simp [ipHdrBytes, le16]
  omega

theorem udpHdrBytes_length (p : List Nat) (k : Nat) :
    (udpHdrBytes p k).length = 6 + p.length := by
  simp [udpHdrBytes, le16]
  omega

theorem cmdsOf_append (a b : List Event) : cmdsOf (a ++ b) = cmdsOf a ++ cmdsOf b := by
  simp [cmdsOf, List.filterMap_append]

theorem sendsOf_append (a b : List Event) : sendsOf (a ++ b) = sendsOf a ++ sendsOf b := by
  simp [sendsOf, List.filterMap_append]

theorem cmdsOf_setpointEvents (c v : Int) (dev : DevReplies) :
    cmdsOf (setpointEvents c v dev) = [DevCmd.MWV v, DevCmd.MWI c] := by
  unfold setpointEvents
  by_cases h1 : leadsWith ackMarker dev.mwv <;>
    by_cases h2 : leadsWith ackMarker dev.mwi <;>
      simp [h1, h2, cmdsOf]

theorem sendsOf_setpointEvents (c v : Int) (dev : DevReplies) :
    sendsOf (setpointEvents c v dev) = [] := by
  unfold setpointEvents
  by_cases h1 : leadsWith ackMarker dev.mwv <;>
    by_cases h2 : leadsWith ackMarker dev.mwi <;>
      simp [h1, h2, sendsOf]

theorem cmdsOf_readbackEvents (dev : DevReplies) :
    cmdsOf (readbackEvents dev)
      = [DevCmd.MST, DevCmd.MWIq, DevCmd.MWVq, DevCmd.MRI, DevCmd.MRV] := rfl

theorem sendsOf_readbackEvents (dev : DevReplies) :
    sendsOf (readbackEvents dev) = [] := rfl

/-- A marker list begins its own append with anything. -/
theorem leadsWith_self_append : ∀ (m r : List Char), leadsWith m (m ++ r) = true
  | [], _ => rfl
  | c :: t, r => by simp [leadsWith, leadsWith_self_append t r]

/-! ## Claim C1 -/

/-- C1, corrected.  The IP checksum field is zeroed first (the buffer
summed over has 0 in the checksum position, second conjunct), but the
sum is taken over the first `tot_len` = 64 bytes of the packet buffer
— the IP header, the 8 still-zero UDP header bytes and the 36-byte
payload — which (zero words dropped) equals the RFC 1071 ones
complement checksum of the zero-checksum IP header concatenated with
the payload, not of the 20 IP header bytes alone. -/
theorem C1_ip_checksum_amended (counter : Nat) (daddr dport : List Nat)
    (dev : DevReplies) (hd : daddr.length = 4) :
    ipChecksum counter daddr dev
        = csumBytes (ipHdrBytes counter daddr 0 ++ payloadBytes dev)
      ∧ (bufAtIpCsum counter daddr dev).take 20 = ipHdrBytes counter daddr 0
      ∧ sentPacket counter daddr dport dev
          = ipHdrBytes counter daddr (ipChecksum counter daddr dev)
            ++ udpHdrBytes dport (udpChecksum dport daddr dev)
            ++ payloadBytes dev := by
  have hlen : (ipHdrBytes counter daddr 0).length = 20 := by
    rw [ipHdrBytes_length, hd]
  refine ⟨?_, ?_, rfl⟩
  · unfold ipChecksum bufAtIpCsum csumBytes
    rw [wordSum_append (ipHdrBytes counter daddr 0 ++ List.replicate 8 0) _
          (by simp [List.length_append, hlen]),
        wordSum_append (ipHdrBytes counter daddr 0) (List.replicate 8 0) (by rw [hlen]),
        wordSum_append (ipHdrBytes counter daddr 0) (payloadBytes dev) (by rw [hlen])]
    have hz : wordSum (List.replicate 8 0) = 0 := rfl
    rw [hz, Nat.add_zero]
  · unfold bufAtIpCsum
    rw [List.append_assoc]
    exact List.take_left' hlen

/-- C1, counterexample to the claim as stated: for a concrete client
and concrete well-formed device replies, the stored IP checksum
differs from the checksum computed over the 20 IP header bytes only. -/
theorem C1_counterexample :
    ipChecksum 1 [127, 0, 0, 1] sampleReplies
      ≠ csumBytes ((bufAtIpCsum 1 [127, 0, 0, 1] sampleReplies).take 20) := by
  decide

/-- C1, witness instantiating the amended theorem at a concrete
client address. -/
theorem C1_witness :
    ipChecksum 1 [127, 0, 0, 1] sampleReplies
        = csumBytes (ipHdrBytes 1 [127, 0, 0, 1] 0 ++ payloadBytes sampleReplies)
      ∧ (bufAtIpCsum 1 [127, 0, 0, 1] sampleReplies).take 20
          = ipHdrBytes 1 [127, 0, 0, 1] 0 :=
  ⟨(C1_ip_checksum_amended 1 [127, 0, 0, 1] [65, 25] sampleReplies rfl).1,
   (C1_ip_checksum_amended 1 [127, 0, 0, 1] [65, 25] sampleReplies rfl).2.1⟩

/-! ## Claim C2 -/

/-- C2, confirmed.  For every accepted control datagram (24 bytes,
correct magic), whatever the `set` field, the responder issues the
readback commands `MST`, `MWI:?`, `MWV:?`, `MRI`, `MRV` in this order
as the final commands of the iteration, and hands exactly one packet
to `sendto`: the 64-byte buffer whose final 36 bytes are the fixed
`response_data` payload of section 3. -/
theorem C2_readback_and_single_response (counter : Nat)
    (daddr dport buf : List Nat) (dev : DevReplies)
    (hlen : buf.length = CONTROLSIZE) (hmagic : leNat buf 0 4 = CONTROLMAGIC)
    (hd : daddr.length = 4) (hp : dport.length = 2) :
    (∃ pre, cmdsOf (udpIteration counter daddr dport buf dev)
        = pre ++ [DevCmd.MST, DevCmd.MWIq, DevCmd.MWVq, DevCmd.MRI, DevCmd.MRV])
      ∧ sendsOf (udpIteration counter daddr dport buf dev)
          = [sentPacket counter daddr dport dev]
      ∧ (sentPacket counter daddr dport dev).length = TOTLEN
      ∧ (sentPacket counter daddr dport dev).drop 28 = payloadBytes dev
      ∧ (payloadBytes dev).length = RESPONSESIZE := by
  have hIter : udpIteration counter daddr dport buf dev
      = (if leNat buf 4 4 ≠ 0 then setpointEvents (leI64 buf 8) (leI64 buf 16) dev
         else [])
        ++ readbackEvents dev
        ++ [Event.send (sentPacket counter daddr dport dev)] := by
    unfold udpIteration
    rw [if_neg (by simp [hlen]), if_neg (by simp [hmagic])]
  have hip : (ipHdrBytes counter daddr (ipChecksum counter daddr dev)).length = 20 := by
    rw [ipHdrBytes_length, hd]
  have hudp : (udpHdrBytes dport (udpChecksum dport daddr dev)).length = 8 := by
    rw [udpHdrBytes_length, hp]
  refine ⟨?_, ?_, ?_, ?_, payloadBytes_length dev⟩
  · rw [hIter]
    by_cases hset : leNat buf 4 4 ≠ 0
    · refine ⟨[DevCmd.MWV (leI64 buf 16), DevCmd.MWI (leI64 buf 8)], ?_⟩
      rw [if_pos hset, cmdsOf_append, cmdsOf_append, cmdsOf_setpointEvents,
          cmdsOf_readbackEvents]
      rfl
    · refine ⟨[], ?_⟩
      rw [if_neg hset, cmdsOf_append, cmdsOf_append, cmdsOf_readbackEvents]
      rfl
  · rw [hIter]
    by_cases hset : leNat buf 4 4 ≠ 0
    · rw [if_pos hset, sendsOf_append, sendsOf_append, sendsOf_setpointEvents,
          sendsOf_readbackEvents]
      rfl
    · rw [if_neg hset, sendsOf_append, sendsOf_append, sendsOf_readbackEvents]
      rfl
  · unfold sentPacket
    rw [List.length_append, List.length_append, hip, hudp, payloadBytes_length]
    rfl
  · unfold sentPacket
    have h28 : (ipHdrBytes counter daddr (ipChecksum counter daddr dev)
        ++ udpHdrBytes dport (udpChecksum dport daddr dev)).length = 28 := by
      rw [List.length_append, hip, hudp]
    exact List.drop_left' h28

/-- C2, witness: a concrete `set = 0` datagram against the sample
replies. -/
theorem C2_witness :
    sendsOf (udpIteration 1 [127, 0, 0, 1] [65, 25] bufNoSet sampleReplies)
        = [sentPacket 1 [127, 0, 0, 1] [65, 25] sampleReplies]
      ∧ (sentPacket 1 [127, 0, 0, 1] [65, 25] sampleReplies).length = TOTLEN
      ∧ (payloadBytes sampleReplies).length = RESPONSESIZE :=
  ⟨(C2_readback_and_single_response 1 [127, 0, 0, 1] [65, 25] bufNoSet sampleReplies
      (by decide) (by decide) rfl rfl).2.1,
   (C2_readback_and_single_response 1 [127, 0, 0, 1] [65, 25] bufNoSet sampleReplies
      (by decide) (by decide) rfl rfl).2.2.1,
   (C2_readback_and_single_response 1 [127, 0, 0, 1] [65, 25] bufNoSet sampleReplies
      (by decide) (by decide) rfl rfl).2.2.2.2⟩

/-! ## Claim C3 -/

/-- C3, confirmed.  A datagram of wrong length or wrong magic is
logged and discarded: no device command is issued, nothing is sent,
the iteration produces a single log line and the loop continues. -/
theorem C3_reject (counter : Nat) (daddr dport buf : List Nat) (dev : DevReplies)
    (h : buf.length ≠ CONTROLSIZE ∨ leNat buf 0 4 ≠ CONTROLMAGIC) :
    cmdsOf (udpIteration counter daddr dport buf dev) = []
      ∧ sendsOf (udpIteration counter daddr dport buf dev) = []
      ∧ (udpIteration counter daddr dport buf dev = [Event.log logUnknownPkt]
         ∨ udpIteration counter daddr dport buf dev = [Event.log logWrongMagic]) := by
  by_cases hl : buf.length = CONTROLSIZE
  · have hm : leNat buf 0 4 ≠ CONTROLMAGIC := by
      rcases h with h | h
      · exact absurd hl h
      · exact h
    unfold udpIteration
    rw [if_neg (by simp [hl]), if_pos hm]
    exact ⟨rfl, rfl, Or.inr rfl⟩
  · unfold udpIteration
    rw [if_pos hl]
    exact ⟨rfl, rfl, Or.inl rfl⟩

/-- C3, witness: a three-byte datagram produces no command and no
response. -/
theorem C3_witness :
    cmdsOf (udpIteration 0 [] [] [1, 2, 3] sampleReplies) = []
      ∧ sendsOf (udpIteration 0 [] [] [1, 2, 3] sampleReplies) = [] :=
  ⟨(C3_reject 0 [] [] [1, 2, 3] sampleReplies (Or.inl (by decide))).1,
   (C3_reject 0 [] [] [1, 2, 3] sampleReplies (Or.inl (by decide))).2.1⟩

/-! ## Claim C4 -/

/-- C4, code bug.  The `response_data` struct and the file header
declare the value fields as `int64_t` micro-units, and the claim
requires `round(value * 1e6)` as a 64-bit integer; but the code stores
`(int)round(1e6 * v)`, a 32-bit narrowing.  For the reply
`#MWI:3000.000000` (3000 A = 3000000000 uA) the rounded micro-value is
3000000000, yet the narrowing confines the stored field to
[-2^31, 2^31), so no possible result equals it (the wraparound model
yields -1294967296). -/
theorem C4_micro_truncation :
    microOf ("#MWI:3000.000000".toList) = -1294967296
      ∧ roundHalfAway (1000000 * (parseLf (("#MWI:3000.000000".toList).drop 5)).getD 0)
          = 3000000000
      ∧ (∀ x : Int, -(2 ^ 31) ≤ toInt32 x ∧ toInt32 x < 2 ^ 31)
      ∧ ((-1294967296 : Int) ≠ 3000000000) := by
  refine ⟨by decide, by decide, ?_, by decide⟩
  intro x
  unfold toInt32
  have e31 : (2 : Int) ^ 31 = 2147483648 := by norm_num
  have e32 : (2 : Int) ^ 32 = 4294967296 := by norm_num
  have h1 : 0 ≤ (x + 2 ^ 31).emod (2 ^ 32) := Int.emod_nonneg _ (by norm_num)
  have h2 : (x + 2 ^ 31).emod (2 ^ 32) < 2 ^ 32 := Int.emod_lt_of_pos _ (by norm_num)
  omega

/-! ## Claim C5 -/

/-- C5, confirmed.  For an accepted datagram with `set != 0`, the
responder issues `MWV` with the voltage setpoint first, then `MWI`
with the current setpoint, then the five readbacks; the reply to each
setpoint command is independently checked against the `#AK` marker and
a failed check only produces a log line; the single `sendto` is the
last event of the iteration, after both setpoint commands. -/
theorem C5_setpoint_order (counter : Nat) (daddr dport buf : List Nat)
    (dev : DevReplies) (hlen : buf.length = CONTROLSIZE)
    (hmagic : leNat buf 0 4 = CONTROLMAGIC) (hset : leNat buf 4 4 ≠ 0) :
    cmdsOf (udpIteration counter daddr dport buf dev)
        = [DevCmd.MWV (leI64 buf 16), DevCmd.MWI (leI64 buf 8),
           DevCmd.MST, DevCmd.MWIq, DevCmd.MWVq, DevCmd.MRI, DevCmd.MRV]
      ∧ (udpIteration counter daddr dport buf dev).getLast?
          = some (Event.send (sentPacket counter daddr dport dev))
      ∧ (Event.log logVoltErr ∈ udpIteration counter daddr dport buf dev
          ↔ leadsWith ackMarker dev.mwv = false)
      ∧ (Event.log logCurrErr ∈ udpIteration counter daddr dport buf dev
          ↔ leadsWith ackMarker dev.mwi = false) := by
  have hIter : udpIteration counter daddr dport buf dev
      = setpointEvents (leI64 buf 8) (leI64 buf 16) dev
        ++ readbackEvents dev
        ++ [Event.send (sentPacket counter daddr dport dev)] := by
    unfold udpIteration
    rw [if_neg (by simp [hlen]), if_neg (by simp [hmagic]), if_pos hset]
  have hvc : logVoltErr ≠ logCurrErr := by decide
  have hcv : logCurrErr ≠ logVoltErr := by decide
  rw [hIter]
  refine ⟨?_, ?_, ?_, ?_⟩
  · rw [cmdsOf_append, cmdsOf_append, cmdsOf_setpointEvents, cmdsOf_readbackEvents]
    rfl
  · exact List.getLast?_concat _
  · unfold setpointEvents
    by_cases h1 : leadsWith ackMarker dev.mwv <;>
      by_cases h2 : leadsWith ackMarker dev.mwi <;>
        simp [h1, h2, readbackEvents, hvc]
  · unfold setpointEvents
    by_cases h1 : leadsWith ackMarker dev.mwv <;>
      by_cases h2 : leadsWith ackMarker dev.mwi <;>
        simp [h1, h2, readbackEvents, hcv]

/-- C5, witness: the concrete `set = 1` datagram with voltage setpoint
5000000 uV and current setpoint 2000000 uA against the sample
replies. -/
theorem C5_witness :
    cmdsOf (udpIteration 2 [127, 0, 0, 1] [65, 25] bufSet sampleReplies)
        = [DevCmd.MWV 5000000, DevCmd.MWI 2000000,
           DevCmd.MST, DevCmd.MWIq, DevCmd.MWVq, DevCmd.MRI, DevCmd.MRV]
      ∧ (udpIteration 2 [127, 0, 0, 1] [65, 25] bufSet sampleReplies).getLast?
          = some (Event.send (sentPacket 2 [127, 0, 0, 1] [65, 25] sampleReplies)) := by
  have h := C5_setpoint_order 2 [127, 0, 0, 1] [65, 25] bufSet sampleReplies
    (by decide) (by decide) (by decide)
  exact ⟨by rw [h.1]; decide, h.2.1⟩

/-! ## Claim C6 -/

/-- C6, code bug.  `TcpSendReceive` in `UdpServer.c` keeps the `recv`
result in an `unsigned int`; when `recv` fails with -1 the unsigned
index becomes 4294967295 and the NUL terminator is written far outside
the 80-byte `response` buffer — the claimed bound fails.  The
`OpcUaServer.c` variant guards the write with `reclen > 0` and writes
no terminator at all for that result. -/
theorem C6_nul_bounds :
    udpNulIndex (-1) = 4294967295
      ∧ ¬ udpNulIndex (-1) < BUFSIZE
      ∧ opcNulIndex (-1) = none
      ∧ opcNulIndex 0 = none := by
  refine ⟨by decide, by decide, ?_, ?_⟩ <;> rfl

/-! ## Claim C7 -/

/-- C7, confirmed.  The full command (CRLF included) is handed to one
`send` call, and the exchange is fatal exactly when the accepted byte
count differs from the command length: a short write (or a -1 error
return) terminates the process instead of continuing with a torn
write. -/
theorem C7_short_write_fatal (cmd : List Char) (s : Int)
    (h1 : -1 ≤ s) (h2 : s ≤ (cmd.length : Int)) (h3 : cmd.length < BUFSIZE) :
    (tcpSendPhase cmd s = SendOutcome.fatal ↔ s ≠ (cmd.length : Int)) := by
  unfold tcpSendPhase toUInt32
  have hm : cmd.length % 2 ^ 32 = cmd.length := by
    apply Nat.mod_eq_of_lt
    have : (80 : Nat) < 2 ^ 32 := by norm_num
    unfold BUFSIZE at h3
    omega
  by_cases hneg : s < 0
  · have hs1 : s = -1 := by omega
    subst hs1
    have hv : ((-1 : Int).emod (2 ^ 32)).toNat = 4294967295 := by decide
    rw [hm, hv, if_pos (by unfold BUFSIZE at h3; omega)]
    exact iff_of_true rfl (by omega)
  · have h0 : 0 ≤ s := by omega
    have e32 : (2 : Int) ^ 32 = 4294967296 := by norm_num
    have hlt : s < (2 : Int) ^ 32 := by
      have : (cmd.length : Int) < 4294967296 := by
        have : cmd.length < 80 := h3
        omega
      omega
    have he : s.emod (2 ^ 32) = s := Int.emod_eq_of_lt h0 hlt
    rw [hm, he]
    by_cases hs : s = (cmd.length : Int)
    · rw [if_neg (by omega)]
      exact iff_of_false (by simp) (by omega)
    · rw [if_pos (by omega)]
      exact iff_of_true rfl hs

/-- C7, witness: a three-byte short write of the five-byte command
`MON` CRLF is fatal. -/
theorem C7_witness : tcpSendPhase ("MON\r\n".toList) 3 = SendOutcome.fatal :=
  (C7_short_write_fatal ("MON\r\n".toList) 3 (by decide) (by decide)
    (by decide)).mpr (by decide)

/-! ## Claim C8 -/

/-- C8, counterexample to the claim as stated: for the one-digit
register number 5 and the reply `#MRG:5:3.25`, the value immediately
following the colon-delimited echo is 3.25, but `readRegister` scans
at the fixed offset 8 and returns 0.25. -/
theorem C8_counterexample :
    regReadCommand 5 = "MRG:5\r\n".toList
      ∧ readRegister ("#MRG:5:3.25".toList) = some (mkRat 1 4)
      ∧ readRegisterClaimed 5 ("#MRG:5:3.25".toList) = some (mkRat 13 4)
      ∧ mkRat 1 4 ≠ mkRat 13 4 := by
  exact ⟨by decide, by decide, by decide, by decide⟩

/-- C8, corrected.  `readRegister` issues `MRG:<n>`, validates the
`#MRG:` marker and returns an error result (no crash) on a mismatch;
but the decimal value is scanned at the fixed offset 8 =
`strlen("#MRG:") + 2 + 1`, which is the position after the echo only
when the echoed register number has exactly two digits. -/
theorem C8_offset_amended (echo rest s : List Char) (hech : echo.length = 2)
    (hs : leadsWith mrgMarker s = false) :
    readRegister (mrgMarker ++ echo ++ [':'] ++ rest) = some ((parseLf rest).getD 0)
      ∧ readRegister s = none := by
  constructor
  · have hassoc : mrgMarker ++ echo ++ [':'] ++ rest
        = mrgMarker ++ (echo ++ ([':'] ++ rest)) := by
      simp [List.append_assoc]
    have hpre : leadsWith mrgMarker (mrgMarker ++ echo ++ [':'] ++ rest) = true := by
      rw [hassoc]
      exact leadsWith_self_append _ _
    have hdrop : (mrgMarker ++ echo ++ [':'] ++ rest).drop 8 = rest := by
      apply List.drop_left'
      simp [mrgMarker, hech]
    unfold readRegister
    rw [if_pos hpre, hdrop]
  · unfold readRegister
    rw [if_neg (by simp [hs])]

/-- C8, witness: a two-digit register echo is parsed at the position
after the echo, and a `#NAK` reply yields the error result. -/
theorem C8_witness :
    readRegister (mrgMarker ++ ['3', '1'] ++ [':'] ++ "3.25".toList)
        = some ((parseLf "3.25".toList).getD 0)
      ∧ readRegister ("#NAK:01".toList) = none :=
  C8_offset_amended ['3', '1'] ("3.25".toList) ("#NAK:01".toList)
    (by decide) (by decide)

/-! ## Claim C9 -/

/-- Closed form of the registration loop: it succeeds with the final
count exactly when fewer than `maxreg` entries are processed; register
numbers never influence the outcome. -/
theorem loadRegisters_closed (l : List RegisterEntry) : ∀ i : Nat,
    loadRegisters l i
      = if l = [] then some i
        else if i + l.length < maxreg then some (i + l.length) else none := by
  induction l with
  | nil => intro i; simp [loadRegisters]
  | cons x t ih =>
    intro i
    simp only [loadRegisters, List.length_cons]
    by_cases hcap : i + 1 ≥ maxreg
    · rw [if_pos hcap]
      have hno : ¬ (i + (t.length + 1) < maxreg) := by
        unfold maxreg at *
        omega
      simp [hno]
    · rw [if_neg hcap, ih (i + 1)]
      by_cases ht : t = []
      · subst ht
        have hyes : i + (0 + 1) < maxreg := by
          unfold maxreg at *
          omega
        simp [hyes]
      · have hlen2 : (i + 1) + t.length = i + (t.length + 1) := by omega
        simp only [ht, if_neg, hlen2]
        simp

/-- C9, counterexample to the claim as stated: forty entries with
pairwise distinct register numbers — no more than the capacity
`maxreg` = 40 — are rejected by the loop, while two entries with the
same register number are accepted. -/
theorem C9_counterexample :
    regsFull.length = maxreg
      ∧ (regsFull.map RegisterEntry.number).Nodup
      ∧ loadRegisters regsFull 0 = none
      ∧ loadRegisters [{ number := 5, name := [], descr := [] },
          { number := 5, name := [], descr := [] }] 0 = some 2 := by
  exact ⟨by decide, by decide, by decide, by decide⟩

/-- C9, corrected.  The registration loop succeeds exactly when fewer
than 40 entries are configured (the 40th entry already triggers the
fatal `too many registers` even though the table holds 40 slots);
repeated register numbers are not detected at all; and the check runs
in the registration phase of `main`, after the TCP connection to the
device has been attempted. -/
theorem C9_capacity_amended (entries : List RegisterEntry) :
    (loadRegisters entries 0 = some entries.length ↔ entries.length < maxreg)
      ∧ (loadRegisters entries 0 = none ↔ maxreg ≤ entries.length)
      ∧ (∃ i j : Nat, i < j ∧ opcUaMainPhases[i]? = some Phase.connectTcp
          ∧ opcUaMainPhases[j]? = some Phase.loadRegs) := by
  have h := loadRegisters_closed entries 0
  rw [Nat.zero_add] at h
  refine ⟨?_, ?_, ⟨1, 3, by omega, rfl, rfl⟩⟩
  · rw [h]
    by_cases he : entries = []
    · subst he
      simp [maxreg]
    · rw [if_neg he]
      by_cases hlt : entries.length < maxreg <;> simp [hlt]
  · rw [h]
    by_cases he : entries = []
    · subst he
      simp [maxreg]
    · rw [if_neg he]
      by_cases hlt : entries.length < maxreg
      · simp [hlt]
      · simp [hlt]
        omega

/-! ## Claim C10 -/

/-- C10, confirmed.  For a valid scalar input of the declared type the
write callbacks for `OutputOn`, `CurrentSetpoint` and
`VoltageSetpoint` return `UA_STATUSCODE_GOOD` whatever the device
replied — the result does not depend on the reply, so a `#NAK` is
never surfaced to the variable-access client. -/
theorem C10_write_ignores_reply (b : Bool) (q1 q2 : ℚ) (reply : List Char) :
    (writeDeviceOutputOn (some b) reply).1 = UAStatus.good
      ∧ (writeCurrentSetpoint (some q1) reply).1 = UAStatus.good
      ∧ (writeVoltageSetpoint (some q2) reply).1 = UAStatus.good
      ∧ writeDeviceOutputOn (some b) reply
          = writeDeviceOutputOn (some b) ("#NAK:07".toList)
      ∧ writeCurrentSetpoint (some q1) reply
          = writeCurrentSetpoint (some q1) ("#NAK:07".toList)
      ∧ writeVoltageSetpoint (some q2) reply
          = writeVoltageSetpoint (some q2) ("#NAK:07".toList) :=
  ⟨rfl, rfl, rfl, rfl, rfl, rfl⟩

end FastPS
